import Mathlib

/-!
Verification of the agol2mysql repository core against its specification.

The Python sources (a2database.py, create_db.py, data_xfer_excel.py) are
shallowly embedded below: Python strings are modelled as Lean `String`
(or `List Char` where character-level reasoning is needed), dictionaries as
association lists that preserve insertion order, fallible code as `Except`,
and the database connection as explicit data (catalog rows, table rows,
returned counts) passed to each function.
-/

/-! ## Identifier sanitizer (A2Database._sqlstr / A2Database.sqlstr) -/

/-- The single-quote character (code point 39). -/
def squoteChar : Char := Char.ofNat 39

/-- The double-quote character (code point 34). -/
def dquoteChar : Char := Char.ofNat 34

/-- A2Database._restricted_chars, the string of characters stripped from
identifiers before they are embedded in SQL statements. -/
def restrictedChars : List Char := [';', '(', ')', dquoteChar, squoteChar, '%', '*']

/-- Python str.replace for a single-character pattern: every occurrence of
character c in s is replaced by the string r. -/
def pyReplaceChar (s : List Char) (c : Char) (r : List Char) : List Char :=
  s.flatMap (fun ch => if ch = c then r else [ch])

/-- A2Database._sqlstr: successive replace of each restricted character by
the empty string. -/
def sqlstrRemove (s : List Char) : List Char :=
  restrictedChars.foldl (fun acc c => pyReplaceChar acc c []) s

/-- A2Database.sqlstr: the replacement string is itself first stripped via
_sqlstr, then each restricted character of the input is replaced by it.
A `none` replacement means the Python default (removal). -/
def sqlstrSub (s : List Char) (replacement : Option (List Char)) : List Char :=
  let r := match replacement with
    | none => []
    | some rep => sqlstrRemove rep
  restrictedChars.foldl (fun acc c => pyReplaceChar acc c r) s

/-- String-level wrapper of the sanitizer, used wherever the Python code
calls A2Database._sqlstr on a name. -/
def sqlstrS (s : String) : String := String.mk (sqlstrRemove s.data)

theorem pyReplaceChar_nil (s : List Char) (c : Char) :
    pyReplaceChar s c [] = s.filter (fun ch => ch ≠ c) := by
  induction s with
  | nil => rfl
  | cons a as ih =>
      by_cases h : a = c <;>
        simp [pyReplaceChar, List.flatMap_cons, h] at ih ⊢ <;>
        simpa [pyReplaceChar] using ih

theorem foldl_removeChar_eq_filter (l : List Char) (s : List Char) :
    l.foldl (fun acc c => pyReplaceChar acc c []) s
      = s.filter (fun ch => !l.contains ch) := by
  induction l generalizing s with
  | nil => simp
  | cons c cs ih =>
      rw [List.foldl_cons, pyReplaceChar_nil, ih, List.filter_filter]
      apply List.filter_congr
      intro ch _
      by_cases h : ch = c <;> simp [h]

/-- C7 part one: _sqlstr is exactly a filter removing the restricted
characters and keeping everything else in order. -/
theorem sqlstrRemove_eq_filter (s : List Char) :
    sqlstrRemove s = s.filter (fun ch => !restrictedChars.contains ch) :=
  foldl_removeChar_eq_filter restrictedChars s

/-- C7: A2Database._sqlstr removes every occurrence of the characters
; ( ) " ' % * and leaves all other characters unchanged in order, and it
is idempotent: sanitizing an already-sanitized string returns it
unchanged. -/
theorem sqlstr_removes_restricted_and_idempotent (s : List Char) :
    sqlstrRemove s = s.filter (fun ch => !restrictedChars.contains ch) ∧
    sqlstrRemove (sqlstrRemove s) = sqlstrRemove s := by
  refine ⟨sqlstrRemove_eq_filter s, ?_⟩
  rw [sqlstrRemove_eq_filter s, sqlstrRemove_eq_filter, List.filter_filter]
  apply List.filter_congr
  intro ch _
  cases h : restrictedChars.contains ch <;> simp [h]

theorem mem_pyReplaceChar (x : Char) (s : List Char) (c : Char) (r : List Char)
    (hx : x ∈ pyReplaceChar s c r) : (x ∈ s ∧ x ≠ c) ∨ x ∈ r := by
  unfold pyReplaceChar at hx
  rcases List.mem_flatMap.mp hx with ⟨a, ha, hmem⟩
  by_cases h : a = c
  · simp [h] at hmem
    exact Or.inr hmem
  · simp [h] at hmem
    subst hmem
    exact Or.inl ⟨ha, h⟩

theorem notMem_pyReplaceChar (x : Char) (s : List Char) (c : Char) (r : List Char)
    (hs : x ∉ s) (hr : x ∉ r) : x ∉ pyReplaceChar s c r := by
  intro hx
  rcases mem_pyReplaceChar x s c r hx with ⟨hmem, _⟩ | hmem
  · exact hs hmem
  · exact hr hmem

theorem notMem_foldl_replace (l : List Char) (x : Char) (r : List Char)
    (acc : List Char) (hacc : x ∉ acc) (hr : x ∉ r) :
    x ∉ l.foldl (fun a c => pyReplaceChar a c r) acc := by
  induction l generalizing acc with
  | nil => simpa using hacc
  | cons c cs ih =>
      rw [List.foldl_cons]
      exact ih (pyReplaceChar acc c r) (notMem_pyReplaceChar x acc c r hacc hr)

theorem mem_foldl_replace_elim (l : List Char) (x : Char) (r : List Char)
    (acc : List Char) (hl : x ∈ l) (hr : x ∉ r) :
    x ∉ l.foldl (fun a c => pyReplaceChar a c r) acc := by
  induction l generalizing acc with
  | nil => cases hl
  | cons c cs ih =>
      rw [List.foldl_cons]
      by_cases hxc : x = c
      · subst hxc
        apply notMem_foldl_replace
        · intro hmem
          rcases mem_pyReplaceChar x acc x r hmem with ⟨_, hne⟩ | hmem
          · exact hne rfl
          · exact hr hmem
        · exact hr
      · rcases List.mem_cons.mp hl with h | h
        · exact absurd h hxc
        · exact ih (pyReplaceChar acc c r) h

/-- C10: for every string s and replacement string r, sqlstr(s, r) contains
no restricted character, even when r itself contains restricted characters,
because the replacement is first stripped by _sqlstr before substitution. -/
theorem sqlstr_result_has_no_restricted (s r : List Char) (c : Char)
    (hc : c ∈ restrictedChars) : c ∉ sqlstrSub s (some r) := by
  unfold sqlstrSub
  apply mem_foldl_replace_elim restrictedChars c (sqlstrRemove r) s hc
  rw [sqlstrRemove_eq_filter]
  intro hmem
  rcases List.mem_filter.mp hmem with ⟨_, hkeep⟩
  simp at hkeep
  exact hkeep (by simpa using hc)

/-- Witness for C10 at a concrete input: the replacement string itself holds
restricted characters, yet line-of-code semicolon is absent from the
result. -/
theorem sqlstr_result_has_no_restricted_witness :
    (';' ∈ restrictedChars) ∧ ';' ∉ sqlstrSub ['a', ';', 'b'] (some ['%', 'x']) :=
  ⟨by decide, sqlstr_result_has_no_restricted ['a', ';', 'b'] ['%', 'x'] ';' (by decide)⟩

/-! ## Python string helpers used by the column comparator

Python str.lower / str.casefold agree on the ASCII identifiers involved, and
are modelled as a character-wise lower-casing. -/

/-- Python str.lower (ASCII). -/
def pyLower (s : String) : String := String.mk (s.data.map Char.toLower)

/-- Python membership test: c in s. -/
def strContainsChar (s : String) (c : Char) : Bool := s.data.contains c

/-- Python col_type.split('(')[0]: everything before the first opening
parenthesis (the whole string when there is none). -/
def typeBaseName (t : String) : String :=
  String.mk (t.data.takeWhile (fun c => c ≠ '('))

/-- The segment of col_type between the first opening parenthesis and the
next one (Python col_type.split('(')[1]). -/
def betweenParens (t : String) : List Char :=
  ((t.data.dropWhile (fun c => c ≠ '(')).drop 1).takeWhile (fun c => c ≠ '(')

/-- Python str.rstrip(')') on a character list. -/
def dropTrailingParens (l : List Char) : List Char :=
  (l.reverse.dropWhile (fun c => c = ')')).reverse

/-- Python int(...) on a digit string (the sources only apply it to numeric
length literals such as 255). -/
def pyInt (l : List Char) : Int :=
  Int.ofNat (l.foldl (fun acc c => acc * 10 + (c.toNat - 48)) 0)

/-- The length declared by a column-type string: for 'varchar(255)' this is
some 255, and none when the type declares no parenthesized length.
This is Python int(col_type.split('(')[1].rstrip(')')) guarded by
'(' in col_type. -/
def typeDeclaredLen (t : String) : Option Int :=
  if strContainsChar t '(' then some (pyInt (dropTrailingParens (betweenParens t)))
  else none

/-! ## Schema comparator (A2Database._same_type_and_len, _cols_match,
table_cols_match) -/

/-- The character/binary type family of A2Database._cols_match. -/
def charBinaryTypes : List String :=
  ["char", "varchar", "binary", "varbinary", "tinyblob", "blob", "tinytext", "text"]

/-- The decimal/numeric/bit type family of A2Database._cols_match. -/
def decimalBitTypes : List String := ["decimal", "numeric", "bit"]

/-- A2Database._same_type_and_len: the live column base name must equal the
spec type's base name case-insensitively; a missing declared length is
accepted only when size_opt, and a declared length must equal the live
size. -/
def same_type_and_len (db_col_name : String) (db_col_size : Int) (col_type : String)
    (size_opt : Bool) : Bool :=
  let col_name := if strContainsChar col_type '(' then typeBaseName col_type else col_type
  if pyLower db_col_name != pyLower col_name then false
  else
    match typeDeclaredLen col_type with
    | none => size_opt
    | some n => n == db_col_size

/-- A2Database._cols_match: dispatch on the live column's lowered data type;
character/binary family compares with optional length, decimal/numeric/bit
with required length, anything else by case-insensitive name equality. -/
def cols_match (db_col_type : String) (db_col_len : Int) (db_numeric_len : Int)
    (col_type : String) : Bool :=
  if charBinaryTypes.contains (pyLower db_col_type) then
    same_type_and_len db_col_type db_col_len col_type true
  else if decimalBitTypes.contains (pyLower db_col_type) then
    same_type_and_len db_col_type db_numeric_len col_type false
  else
    pyLower col_type == pyLower db_col_type

/-- One column specification as consumed by create_table/table_cols_match:
optional fields model the Python dict keys that may be absent ('default'
also treats an explicit None as absent, as the code does). -/
structure ColSpec where
  name : String
  colType : String
  null_allowed : Option Bool := none
  primary : Option Bool := none
  autoIncrement : Option Bool := none
  defaultVal : Option String := none
deriving Repr, DecidableEq

/-- One live column row as returned by the INFORMATION_SCHEMA.COLUMNS query
of table_cols_match, with each field typed by its use in the code. -/
structure DbCol where
  column_name : String
  data_type : String
  char_max_len : Int
  column_key : String
  numeric_scale : Int
  is_nullable : Bool
  auto_increment : Bool
  column_default : String
deriving Repr, DecidableEq

/-- The per-column body of the table_cols_match loop: the type families are
compared via _cols_match, and nullability, primary flag, auto-increment
flag and default are compared only when the spec declares them. -/
def colPasses (s : ColSpec) (c : DbCol) : Bool :=
  cols_match c.data_type c.char_max_len c.numeric_scale s.colType &&
  (match s.null_allowed with | none => true | some b => c.is_nullable == b) &&
  (match s.primary with | none => true | some b => (c.column_key == "PRI") == b) &&
  (match s.autoIncrement with | none => true | some b => c.auto_increment == b) &&
  (match s.defaultVal with | none => true | some d => pyLower c.column_default == pyLower d)

/-- The col_indexes dictionary of table_cols_match comprehends sanitized spec
names to spec indexes, later duplicates overwriting earlier ones; looking a
live column name up therefore yields the last spec whose sanitized name
equals it. -/
def findSpec (col_info : List ColSpec) (name : String) : Option ColSpec :=
  (col_info.filter (fun s => sqlstrS s.name == name)).getLast?

/-- The row loop of table_cols_match: each live column must be found among
the spec columns and pass the comparisons, with an early false on any
failure; found counts the matched live columns. -/
def tableColsMatchGo (col_info : List ColSpec) : Nat → List DbCol → Option Nat
  | found, [] => some found
  | found, c :: rest =>
    match findSpec col_info c.column_name with
    | none => none
    | some s =>
      if colPasses s c then tableColsMatchGo col_info (found + 1) rest else none

/-- A2Database.table_cols_match: true when every live column matched and the
number of matched columns equals the number of spec columns. The table name
only reaches the introspection query and does not affect the verdict. -/
def table_cols_match (table_name : String) (col_info : List ColSpec)
    (live : List DbCol) : Bool :=
  let _tn := sqlstrS table_name
  match tableColsMatchGo col_info 0 live with
  | none => false
  | some n => n == col_info.length

/-! Specification-side restatement of the matching rules, written from the
spec text: character/binary family compares the base type name
case-insensitively and the length only when declared; decimal/numeric/bit
requires a declared matching scale; other families compare names
case-insensitively; declared-only attribute comparison. -/

/-- Spec-side per-family type comparison. -/
def specTypeMatches (c : DbCol) (t : String) : Bool :=
  if charBinaryTypes.contains (pyLower c.data_type) then
    (pyLower (typeBaseName t) == pyLower c.data_type) &&
      (match typeDeclaredLen t with
       | none => true
       | some n => n == c.char_max_len)
  else if decimalBitTypes.contains (pyLower c.data_type) then
    (pyLower (typeBaseName t) == pyLower c.data_type) &&
      (match typeDeclaredLen t with
       | none => false
       | some n => n == c.numeric_scale)
  else
    pyLower t == pyLower c.data_type

/-- Spec-side per-column comparison: family rules plus declared-only
attributes. -/
def specColPasses (s : ColSpec) (c : DbCol) : Bool :=
  specTypeMatches c s.colType &&
  (match s.null_allowed with | none => true | some b => c.is_nullable == b) &&
  (match s.primary with | none => true | some b => (c.column_key == "PRI") == b) &&
  (match s.autoIncrement with | none => true | some b => c.auto_increment == b) &&
  (match s.defaultVal with | none => true | some d => pyLower c.column_default == pyLower d)

theorem typeBaseName_of_not_contains (t : String) (h : strContainsChar t '(' = false) :
    typeBaseName t = t := by
  unfold strContainsChar at h
  unfold typeBaseName
  have hmem : '(' ∉ t.data := by simpa using h
  have htake : t.data.takeWhile (fun c => c ≠ '(') = t.data := by
    apply List.takeWhile_eq_self_iff.mpr
    intro c hc
    simp
    intro hcc
    exact hmem (hcc ▸ hc)
  rw [htake]

theorem same_type_and_len_eq_spec (db : String) (size : Int) (t : String) (so : Bool) :
    same_type_and_len db size t so =
      ((pyLower (typeBaseName t) == pyLower db) &&
        (match typeDeclaredLen t with | none => so | some n => n == size)) := by
  unfold same_type_and_len
  have hbase : (if strContainsChar t '(' then typeBaseName t else t) = typeBaseName t := by
    cases h : strContainsChar t '(' with
    | true => simp
    | false => simp [typeBaseName_of_not_contains t h]
  rw [hbase]
  by_cases h : pyLower (typeBaseName t) = pyLower db
  · simp [h, bne_iff_ne]
  · have h' : pyLower db ≠ pyLower (typeBaseName t) := fun hh => h hh.symm
    simp [bne_iff_ne, h', beq_iff_eq, h]

theorem cols_match_eq_specTypeMatches (c : DbCol) (t : String) :
    cols_match c.data_type c.char_max_len c.numeric_scale t = specTypeMatches c t := by
  unfold cols_match specTypeMatches
  by_cases h1 : pyLower c.data_type ∈ charBinaryTypes
  · simp [h1, same_type_and_len_eq_spec]
  · by_cases h2 : pyLower c.data_type ∈ decimalBitTypes
    · simp [h1, h2, same_type_and_len_eq_spec]
    · simp [h1, h2]

theorem colPasses_eq_specColPasses (s : ColSpec) (c : DbCol) :
    colPasses s c = specColPasses s c := by
  unfold colPasses specColPasses
  rw [cols_match_eq_specTypeMatches]

/-- Does one live column find a passing spec counterpart. -/
def liveColOk (col_info : List ColSpec) (c : DbCol) : Bool :=
  match findSpec col_info c.column_name with
  | none => false
  | some s => colPasses s c

theorem tableColsMatchGo_eq (col_info : List ColSpec) (live : List DbCol) (found : Nat) :
    tableColsMatchGo col_info found live =
      if live.all (fun c => liveColOk col_info c)
      then some (found + live.length) else none := by
  induction live generalizing found with
  | nil => simp [tableColsMatchGo]
  | cons c rest ih =>
      have hstep : tableColsMatchGo col_info found (c :: rest) =
          (match findSpec col_info c.column_name with
           | none => none
           | some s =>
              if colPasses s c then tableColsMatchGo col_info (found + 1) rest
              else none) := rfl
      rw [hstep, List.all_cons]
      cases hf : findSpec col_info c.column_name with
      | none =>
          have hok : liveColOk col_info c = false := by
            unfold liveColOk
            rw [hf]
          rw [hok]
          simp
      | some s =>
          have hok : liveColOk col_info c = colPasses s c := by
            unfold liveColOk
            rw [hf]
          rw [hok]
          cases hp : colPasses s c with
          | false => simp [hp]
          | true =>
              rw [ih (found + 1)]
              cases hall : rest.all (fun c => liveColOk col_info c) with
              | true =>
                  have harith : found + 1 + rest.length = found + (rest.length + 1) := by
                    omega
                  simp [hp, hall, harith]
              | false => simp [hall]

/-- C1: table_cols_match is true iff every live column of the table has a
spec counterpart (found by sanitized name, last declaration winning) that it
matches under the per-family rules — character/binary: base name
case-insensitive with length checked only when declared; decimal/numeric/
bit: declared scale required; others: case-insensitive name equality — with
nullability, primary flag, auto-increment flag and default compared only
when the spec declares them, AND the count of matched (live) columns equals
the spec's column count, which makes the result false when a spec column is
absent from the live table. -/
theorem table_cols_match_iff (tn : String) (col_info : List ColSpec) (live : List DbCol) :
    table_cols_match tn col_info live = true ↔
      ((∀ c ∈ live, ∃ s, findSpec col_info c.column_name = some s ∧
          specColPasses s c = true) ∧
        live.length = col_info.length) := by
  unfold table_cols_match
  rw [tableColsMatchGo_eq]
  cases hall : live.all (fun c => liveColOk col_info c) with
  | true =>
      simp only [if_true]
      constructor
      · intro h
        refine ⟨?_, ?_⟩
        · intro c hc
          have hok := List.all_eq_true.mp hall c hc
          unfold liveColOk at hok
          cases hf : findSpec col_info c.column_name with
          | none =>
              rw [hf] at hok
              simp at hok
          | some s =>
              rw [hf] at hok
              refine ⟨s, rfl, ?_⟩
              rw [← colPasses_eq_specColPasses]
              exact hok
        · simpa using h
      · intro ⟨_, hlen⟩
        simp [hlen]
  | false =>
      simp only [Bool.false_eq_true, if_false]
      constructor
      · intro h
        exact absurd h (by simp)
      · intro ⟨hmem, _⟩
        exfalso
        rw [List.all_eq_false] at hall
        rcases hall with ⟨c, hc, hbad⟩
        rcases hmem c hc with ⟨s, hf, hp⟩
        apply hbad
        unfold liveColOk
        rw [hf]
        show colPasses s c = true
        rw [colPasses_eq_specColPasses]
        exact hp

/-! ## Catalog existence checks (A2Database.table_exists / view_exists) -/

/-- One row of INFORMATION_SCHEMA.TABLES: schema, name, and whether the
entry is a view (TABLE_TYPE). Both existence checks query this catalog. -/
structure CatalogEntry where
  table_schema : String
  table_name : String
  is_view : Bool
deriving Repr, DecidableEq

/-- The rows produced by the query SELECT table_schema, table_name FROM
INFORMATION_SCHEMA.TABLES WHERE table_schema = db AND table_name = name:
the filter constrains schema and name only, never TABLE_TYPE. -/
def infoSchemaTablesRows (catalog : List CatalogEntry) (db name : String) :
    List CatalogEntry :=
  catalog.filter (fun e => e.table_schema == db && e.table_name == name)

/-- A2Database.table_exists: sanitize the name, run the catalog query, and
report rowcount > 0. -/
def table_exists (catalog : List CatalogEntry) (db table_name : String) : Bool :=
  decide (0 < (infoSchemaTablesRows catalog db (sqlstrS table_name)).length)

/-- A2Database.view_exists: sanitize the name, run the catalog query
(the same statement as table_exists), and report rowcount > 0. -/
def view_exists (catalog : List CatalogEntry) (db view_name : String) : Bool :=
  decide (0 < (infoSchemaTablesRows catalog db (sqlstrS view_name)).length)

/-- C9: view_exists and table_exists are extensionally equal — they issue
the identical INFORMATION_SCHEMA.TABLES query — and in particular
view_exists answers true for an ordinary (non-view) table of the requested
name even when no view exists. -/
theorem view_exists_eq_table_exists :
    (∀ (catalog : List CatalogEntry) (db name : String),
        view_exists catalog db name = table_exists catalog db name) ∧
    view_exists [⟨"d", "t", false⟩] "d" "t" = true := by
  constructor
  · intro catalog db name
    rfl
  · decide

/-! ## Row data model for the reconciler (check_data_exists,
check_data_exists_pk, add_update_data) -/

/-- A cell value moved between the sheet and the database. -/
inductive Value where
  | vNull : Value
  | vInt : Int → Value
  | vStr : String → Value
deriving Repr, DecidableEq

/-- A stored table row: column name to value. -/
abbrev DataRow := List (String × Value)

/-- The value a stored row holds for a column. -/
def rowValue (row : DataRow) (col : String) : Option Value :=
  (row.find? (fun pr => pr.fst == col)).map (fun pr => pr.snd)

/-- SQL semantics of a conjunction of column = value equalities. -/
def rowMatchesConds (row : DataRow) (conds : List (String × Value)) : Bool :=
  conds.all (fun pr => rowValue row pr.fst == some pr.snd)

/-- SELECT count(1) FROM rows WHERE conds. -/
def countMatching (rows : List DataRow) (conds : List (String × Value)) : Nat :=
  (rows.filter (fun r => rowMatchesConds r conds)).length

/-- A2Database.check_data_exists_pk: sanitize the table and key names, count
the rows holding the key value, and report res[0] > 0, i.e. one OR MORE
matches. -/
def check_data_exists_pk (rows : List DataRow) (table_name primarykey : String)
    (primarykeyvalue : Value) : Bool :=
  let _tn := sqlstrS table_name
  let clean_key := sqlstrS primarykey
  decide (0 < countMatching rows [(clean_key, primarykeyvalue)])

/-- The geom_col_info dictionary produced by get_col_info: target geometry
column, parameterized SQL constructor fragment, and the coordinate-bearing
sheet column names. -/
structure GeomColInfo where
  table_column : String
  col_sql : String
  sheet_cols : List String
deriving Repr, DecidableEq

/-- Python truthiness of an optional string (None and '' are falsy). -/
def pyTruthyStr (o : Option String) : Bool :=
  match o with
  | none => false
  | some s => s != ""

/-- Column-alias substitution: a name found among the alias keys is replaced
by its database column name. -/
def aliasApply (col_alias : List (String × String)) (n : String) : String :=
  match col_alias.find? (fun pr => pr.fst == n) with
  | none => n
  | some pr => pr.snd

/-- Python col_values[col_names.index(name)]: an absent name raises
ValueError. -/
def lookupValue (col_names : List String) (col_values : List Value) (n : String) :
    Except String Value :=
  match col_names.indexOf? n with
  | none => Except.error "ValueError: name is not in list"
  | some i =>
      match col_values.get? i with
      | none => Except.error "IndexError: list index out of range"
      | some v => Except.ok v

/-- The existence query built by check_data_exists, kept structured: the
sanitized equality-tested column names with their bound values, and the
optional geometry conjunct (geometry column, constructor SQL fragment, bound
coordinate values). -/
structure ExistsQuery where
  table : String
  whereCols : List String
  whereValues : List Value
  geomPart : Option (String × String × List Value)
deriving Repr, DecidableEq

/-- The check-strategy block of check_data_exists: primary-key-only when a
primary key is configured, otherwise every column minus the geometry sheet
columns; then the alias switch (applied only when the alias dict is
truthy). -/
def checkStrategyCols (col_names : List String) (col_alias : List (String × String))
    (geom_col_info : Option GeomColInfo) (primary_key : Option String) : List String :=
  let check_cols0 :=
    if pyTruthyStr primary_key then [primary_key.getD ""]
    else
      match geom_col_info with
      | none => col_names
      | some g => col_names.filter (fun n => !(g.sheet_cols.contains n))
  if col_alias.isEmpty then check_cols0
  else check_cols0.map (fun n => aliasApply col_alias n)

/-- The value-collection and geometry-conjunct tail of check_data_exists,
taking the selected check columns. -/
def buildExistsQuery (tn : String) (col_names : List String) (col_values : List Value)
    (geom_col_info : Option GeomColInfo) (primary_key : Option String)
    (check_cols : List String) : Except String ExistsQuery :=
  match check_cols.mapM (fun n => lookupValue col_names col_values n) with
  | Except.error e => Except.error e
  | Except.ok vals =>
      match geom_col_info with
      | some g =>
          if pyTruthyStr primary_key then
            Except.ok ⟨tn, check_cols.map sqlstrS, vals, none⟩
          else
            match g.sheet_cols.mapM (fun n => lookupValue col_names col_values n) with
            | Except.error e => Except.error e
            | Except.ok gvals =>
                Except.ok ⟨tn, check_cols.map sqlstrS, vals,
                  some (sqlstrS g.table_column, g.col_sql, gvals)⟩
      | none => Except.ok ⟨tn, check_cols.map sqlstrS, vals, none⟩

/-- The query-construction phase of A2Database.check_data_exists: parameter
checks, check-strategy selection, alias substitution, value collection, and
the geometry conjunct. -/
def check_data_exists_q (table_name : String) (col_names : List String)
    (col_values : List Value) (col_alias : List (String × String))
    (geom_col_info : Option GeomColInfo) (primary_key : Option String) :
    Except String ExistsQuery :=
  if col_names.length ≠ col_values.length then
    Except.error "ValueError: the number of columns does not match the number of values"
  else if pyTruthyStr primary_key && !(col_names.contains (primary_key.getD "")) then
    Except.error "ValueError: the primary key name is not found in column_names"
  else
    buildExistsQuery (sqlstrS table_name) col_names col_values geom_col_info primary_key
      (checkStrategyCols col_names col_alias geom_col_info primary_key)

/-- SELECT count(1) for the built existence query: plain equality on the
non-geometry conjuncts, and the geometry conjunct judged by the SQL
engine's evaluation of the constructor fragment, abstracted as geomEval. -/
def evalExistsQuery (rows : List DataRow)
    (geomEval : DataRow → String → String → List Value → Bool) (q : ExistsQuery) : Nat :=
  (rows.filter (fun r => rowMatchesConds r (q.whereCols.zip q.whereValues) &&
      (match q.geomPart with
       | none => true
       | some gp => geomEval r gp.1 gp.2.1 gp.2.2))).length

/-- A2Database.check_data_exists: build the query, count, and report
res[0] == 1, i.e. EXACTLY one match. -/
def check_data_exists (rows : List DataRow)
    (geomEval : DataRow → String → String → List Value → Bool)
    (table_name : String) (col_names : List String) (col_values : List Value)
    (col_alias : List (String × String)) (geom_col_info : Option GeomColInfo)
    (primary_key : Option String) : Except String Bool :=
  (check_data_exists_q table_name col_names col_values col_alias geom_col_info
      primary_key).map (fun q => evalExistsQuery rows geomEval q == 1)

/-- C3: the full-row existence check answers true iff the matching-row count
is exactly one, the primary-key-only probe answers true iff the count is at
least one, and on a table where the key value is duplicated (count 2) the
probe answers true while the full check answers false. -/
theorem exists_checks_count_semantics :
    (∀ (rows : List DataRow) (geomEval : DataRow → String → String → List Value → Bool)
        (tn : String) (cn : List String) (cv : List Value)
        (ca : List (String × String)) (g : Option GeomColInfo) (pk : Option String)
        (q : ExistsQuery),
        check_data_exists_q tn cn cv ca g pk = Except.ok q →
        (check_data_exists rows geomEval tn cn cv ca g pk = Except.ok true ↔
          evalExistsQuery rows geomEval q = 1)) ∧
    (∀ (rows : List DataRow) (tn k : String) (v : Value),
        check_data_exists_pk rows tn k v = true ↔
          1 ≤ countMatching rows [(sqlstrS k, v)]) ∧
    (check_data_exists_pk [[("id", Value.vInt 1)], [("id", Value.vInt 1)]] "t" "id"
        (Value.vInt 1) = true ∧
      check_data_exists [[("id", Value.vInt 1)], [("id", Value.vInt 1)]]
        (fun _ _ _ _ => true) "t" ["id"] [Value.vInt 1] [] none none
          = Except.ok false) := by
  refine ⟨?_, ?_, ?_, ?_⟩
  · intro rows geomEval tn cn cv ca g pk q hq
    unfold check_data_exists
    rw [hq]
    simp [Except.map]
  · intro rows tn k v
    unfold check_data_exists_pk
    simp only [decide_eq_true_eq]
    omega
  · rfl
  · rfl

/-- Witness for C3: the two iffs applied on a concrete one-row table. -/
theorem exists_checks_count_semantics_witness :
    (check_data_exists [[("id", Value.vInt 5)]] (fun _ _ _ _ => true) "t" ["id"]
        [Value.vInt 5] [] none none = Except.ok true ↔
      evalExistsQuery [[("id", Value.vInt 5)]] (fun _ _ _ _ => true)
        ⟨"t", ["id"], [Value.vInt 5], none⟩ = 1) ∧
    (check_data_exists_pk [[("id", Value.vInt 5)]] "t" "id" (Value.vInt 5) = true ↔
      1 ≤ countMatching [[("id", Value.vInt 5)]] [(sqlstrS "id", Value.vInt 5)]) :=
  ⟨exists_checks_count_semantics.1 [[("id", Value.vInt 5)]] (fun _ _ _ _ => true)
      "t" ["id"] [Value.vInt 5] [] none none ⟨"t", ["id"], [Value.vInt 5], none⟩ (by rfl),
    exists_checks_count_semantics.2.1 [[("id", Value.vInt 5)]] "t" "id" (Value.vInt 5)⟩

/-- C2 counterexample: a primary key that is configured but absent from the
row's columns does NOT fall back to the full-column check — check_data_exists
raises ValueError at that input instead of testing equality across the
non-geometry columns. -/
theorem check_exists_pk_absent_counterexample :
    check_data_exists_q "t" ["a"] [Value.vInt 0] [] none (some "pk")
      = Except.error "ValueError: the primary key name is not found in column_names" := by
  rfl

/-- Spec-side description of the non-primary-key strategy: every column
except the geometry sheet columns. -/
def nonGeomCols (cn : List String) (g : Option GeomColInfo) : List String :=
  match g with
  | none => cn
  | some gi => cn.filter (fun n => !(gi.sheet_cols.contains n))

theorem aliasApply_nil (n : String) : aliasApply [] n = n := rfl

theorem checkStrategyCols_pk (cn : List String) (ca : List (String × String))
    (g : Option GeomColInfo) (pk : Option String) (h : pyTruthyStr pk = true) :
    checkStrategyCols cn ca g pk = [aliasApply ca (pk.getD "")] := by
  unfold checkStrategyCols
  rw [h]
  cases ca with
  | nil => simp [aliasApply_nil]
  | cons a as => simp

theorem checkStrategyCols_nopk (cn : List String) (ca : List (String × String))
    (g : Option GeomColInfo) (pk : Option String) (h : pyTruthyStr pk = false) :
    checkStrategyCols cn ca g pk = (nonGeomCols cn g).map (fun n => aliasApply ca n) := by
  unfold checkStrategyCols nonGeomCols
  rw [h]
  cases ca with
  | nil =>
      simp only [List.isEmpty_nil, if_true, if_false, Bool.false_eq_true]
      rw [show (fun n => aliasApply [] n) = fun n : String => n from funext aliasApply_nil]
      simp
  | cons a as => simp

/-- C2 (amended): when a primary key is configured and present among the
row's columns, the existence query tests primary-key equality alone with no
geometry conjunct; when no primary key is configured, it tests equality
across every non-geometry column with geometry compared via the precomputed
constructor fragment; but when a primary key is configured and ABSENT from
the row's columns, check_data_exists raises ValueError instead of falling
back to the full-column check. -/
theorem check_data_exists_strategy (tn : String) (cn : List String) (cv : List Value)
    (ca : List (String × String)) (g : Option GeomColInfo) (pk : Option String)
    (q : ExistsQuery) :
    (check_data_exists_q tn cn cv ca g pk = Except.ok q →
      ((pyTruthyStr pk = true →
          q.whereCols = [sqlstrS (aliasApply ca (pk.getD ""))] ∧ q.geomPart = none) ∧
        (pyTruthyStr pk = false →
          q.whereCols = (nonGeomCols cn g).map (fun n => sqlstrS (aliasApply ca n)) ∧
          ∀ gi, g = some gi →
            ∃ gv, q.geomPart = some (sqlstrS gi.table_column, gi.col_sql, gv)))) ∧
    (pyTruthyStr pk = true → cn.contains (pk.getD "") = false →
      ∃ e, check_data_exists_q tn cn cv ca g pk = Except.error e) := by
  constructor
  · intro hq
    unfold check_data_exists_q at hq
    by_cases hlen : cn.length ≠ cv.length
    · rw [if_pos hlen] at hq
      exact absurd hq (by simp)
    · rw [if_neg hlen] at hq
      by_cases hguard : (pyTruthyStr pk && !(cn.contains (pk.getD ""))) = true
      · rw [if_pos hguard] at hq
        exact absurd hq (by simp)
      · rw [if_neg hguard] at hq
        unfold buildExistsQuery at hq
        cases hm : (checkStrategyCols cn ca g pk).mapM
            (fun n => lookupValue cn cv n) with
        | error e =>
            rw [hm] at hq
            exact absurd hq (by simp)
        | ok vals =>
            rw [hm] at hq
            cases hg : g with
            | none =>
                rw [hg] at hq
                replace hq : Except.ok (⟨sqlstrS tn,
                    List.map sqlstrS (checkStrategyCols cn ca none pk), vals, none⟩ :
                    ExistsQuery) = Except.ok q := hq
                have hq' := Except.ok.inj hq
                subst hq'
                constructor
                · intro hpk
                  refine ⟨?_, rfl⟩
                  show List.map sqlstrS (checkStrategyCols cn ca none pk) = _
                  rw [checkStrategyCols_pk cn ca none pk hpk]
                  rfl
                · intro hpk
                  refine ⟨?_, ?_⟩
                  · show List.map sqlstrS (checkStrategyCols cn ca none pk) = _
                    rw [checkStrategyCols_nopk cn ca none pk hpk, List.map_map]
                    rfl
                  · intro gi hgi
                    cases hgi
            | some gi =>
                rw [hg] at hq
                cases hpk : pyTruthyStr pk with
                | true =>
                    rw [hpk] at hq
                    replace hq : Except.ok (⟨sqlstrS tn,
                        List.map sqlstrS (checkStrategyCols cn ca (some gi) pk), vals,
                        none⟩ : ExistsQuery) = Except.ok q := hq
                    have hq' := Except.ok.inj hq
                    subst hq'
                    constructor
                    · intro _
                      refine ⟨?_, rfl⟩
                      show List.map sqlstrS (checkStrategyCols cn ca (some gi) pk) = _
                      rw [checkStrategyCols_pk cn ca (some gi) pk hpk]
                      rfl
                    · intro hcontra
                      simp at hcontra
                | false =>
                    rw [hpk] at hq
                    replace hq : (match gi.sheet_cols.mapM
                        (fun n => lookupValue cn cv n) with
                      | Except.error e => (Except.error e : Except String ExistsQuery)
                      | Except.ok gvals => Except.ok ⟨sqlstrS tn,
                          List.map sqlstrS (checkStrategyCols cn ca (some gi) pk), vals,
                          some (sqlstrS gi.table_column, gi.col_sql, gvals)⟩)
                        = Except.ok q := hq
                    cases hgm : gi.sheet_cols.mapM (fun n => lookupValue cn cv n) with
                    | error e =>
                        rw [hgm] at hq
                        exact absurd hq (by simp)
                    | ok gvals =>
                        rw [hgm] at hq
                        replace hq : Except.ok (⟨sqlstrS tn,
                            List.map sqlstrS (checkStrategyCols cn ca (some gi) pk), vals,
                            some (sqlstrS gi.table_column, gi.col_sql, gvals)⟩ :
                            ExistsQuery) = Except.ok q := hq
                        have hq' := Except.ok.inj hq
                        subst hq'
                        constructor
                        · intro hcontra
                          simp at hcontra
                        · intro _
                          refine ⟨?_, ?_⟩
                          · show List.map sqlstrS (checkStrategyCols cn ca (some gi) pk) = _
                            rw [checkStrategyCols_nopk cn ca (some gi) pk hpk,
                              List.map_map]
                            rfl
                          · intro gi2 hgi2
                            injection hgi2 with hsame
                            subst hsame
                            exact ⟨gvals, rfl⟩
  · intro hpk hcon
    by_cases hlen : cn.length = cv.length
    · refine ⟨"ValueError: the primary key name is not found in column_names", ?_⟩
      unfold check_data_exists_q
      rw [if_neg (by omega),
        if_pos (by simp only [hpk, hcon, Bool.true_and, Bool.not_false])]
    · refine ⟨"ValueError: the number of columns does not match the number of values", ?_⟩
      unfold check_data_exists_q
      rw [if_pos hlen]

/-- Witness for C2 (amended): the primary-key strategy on a present key, and
the ValueError on an absent configured key, at concrete inputs. -/
theorem check_data_exists_strategy_witness :
    ((⟨"t", ["pk"], [Value.vInt 1], none⟩ : ExistsQuery).whereCols
        = [sqlstrS (aliasApply [] "pk")] ∧
      (⟨"t", ["pk"], [Value.vInt 1], none⟩ : ExistsQuery).geomPart = none) ∧
    (∃ e, check_data_exists_q "t" ["a"] [Value.vInt 0] [] none (some "pk")
        = Except.error e) :=
  ⟨((check_data_exists_strategy "t" ["pk"] [Value.vInt 1] [] none (some "pk")
        ⟨"t", ["pk"], [Value.vInt 1], none⟩).1 (by rfl)).1 (by rfl),
    (check_data_exists_strategy "t" ["a"] [Value.vInt 0] [] none (some "pk")
        ⟨"t", [], [], none⟩).2 (by rfl) (by rfl)⟩

/-! ## Write-statement generation (A2Database.add_update_data) -/

/-- The generated write statement, structured: an UPDATE holds the sanitized
SET pairs (column, binding fragment), the WHERE column, and the bound values;
an INSERT holds the sanitized column list, the binding fragments, and the
bound values. -/
inductive SqlWrite where
  | updateStmt (table : String) (setCols : List (String × String)) (whereCol : String)
      (values : List Value)
  | insertStmt (table : String) (cols : List String) (types : List String)
      (values : List Value)
deriving Repr, DecidableEq

/-- Python next((idx for idx in range(0, len(l)) if pred l[idx])): the first
index satisfying pred, none when the generator is exhausted
(StopIteration). -/
def pyNextIndex (pred : String → Bool) : List String → Option Nat
  | [] => none
  | c :: rest => if pred c then some 0 else (pyNextIndex pred rest).map (fun j => j + 1)

/-- The query_cols/query_types/query_values setup of add_update_data: with a
geometry column the sheet coordinate columns are folded into one target
column bound through the constructor fragment; otherwise the columns pass
through with plain placeholders. -/
def addUpdateBase (col_names : List String) (col_values : List Value)
    (geom_col_info : Option GeomColInfo) :
    Except String (List String × List String × List Value) :=
  match geom_col_info with
  | some g =>
      match ((col_names.filter (fun n => !(g.sheet_cols.contains n))).filter
          (fun n => !(g.sheet_cols.contains n))).mapM
          (fun n => lookupValue col_names col_values n) with
      | Except.error e => Except.error e
      | Except.ok vals =>
          match g.sheet_cols.mapM (fun n => lookupValue col_names col_values n) with
          | Except.error e => Except.error e
          | Except.ok gvals =>
              Except.ok ((col_names.filter (fun n => !(g.sheet_cols.contains n)))
                  ++ [g.table_column],
                (col_names.filter (fun n => !(g.sheet_cols.contains n))).map
                    (fun _ => "%s") ++ [g.col_sql],
                vals ++ gvals)
  | none => Except.ok (col_names, col_names.map (fun _ => "%s"), col_values)

/-- The SQL-generation tail of add_update_data after aliasing: UPDATE
excludes every primary-key-named column from the SET list, removes the first
primary-key value, and appends the primary-key value as the last bound
parameter; INSERT passes everything through. -/
def addUpdateFinishP (tn : String) (col_names : List String) (col_values : List Value)
    (p : String) (qcols : List String) (qtypes : List String) (qvals : List Value) :
    Except String SqlWrite :=
  match pyNextIndex (fun c => pyLower c == pyLower p) qcols with
  | none => Except.error "StopIteration"
  | some i =>
      match lookupValue col_names col_values p with
      | Except.error e => Except.error e
      | Except.ok pkv =>
          Except.ok (SqlWrite.updateStmt tn
            (((qcols.zip qtypes).filter
                (fun ct => !(pyLower ct.fst == pyLower p))).map
              (fun ct => (sqlstrS ct.fst, ct.snd)))
            p
            (qvals.eraseIdx i ++ [pkv]))

def addUpdateFinish (tn : String) (col_names : List String) (col_values : List Value)
    (update : Bool) (pk : Option String)
    (qcols : List String) (qtypes : List String) (qvals : List Value) :
    Except String SqlWrite :=
  if update then
    match pk with
    | none => Except.error "AttributeError: NoneType object has no attribute lower"
    | some p => addUpdateFinishP tn col_names col_values p qcols qtypes qvals
  else
    Except.ok (SqlWrite.insertStmt tn (qcols.map sqlstrS) qtypes qvals)

/-- A2Database.add_update_data: table and key names sanitized, the geometry
setup, alias substitution on the column list, then UPDATE or INSERT
generation. -/
def add_update_data (table_name : String) (col_names : List String)
    (col_values : List Value) (col_alias : List (String × String))
    (geom_col_info : Option GeomColInfo) (update : Bool)
    (primary_key : Option String) : Except String SqlWrite :=
  match addUpdateBase col_names col_values geom_col_info with
  | Except.error e => Except.error e
  | Except.ok (qcols0, qtypes, qvals) =>
      addUpdateFinish (sqlstrS table_name) col_names col_values update
        (primary_key.map sqlstrS)
        (qcols0.map (fun n => aliasApply col_alias n)) qtypes qvals

theorem zip_map_const {α β γ : Type} (l : List α) (m : List β) (t : γ)
    (h : l.length = m.length) :
    l.zip (m.map (fun _ => t)) = l.map (fun c => (c, t)) := by
  induction l generalizing m with
  | nil => simp
  | cons a as ih =>
      cases m with
      | nil => simp at h
      | cons b bs =>
          simp only [List.map_cons, List.zip_cons_cons]
          rw [ih bs (by simpa using h)]

theorem filter_map_pair (l : List String) (t : String) (pred : String → Bool)
    (f : String → String) :
    ((l.map (fun c => (c, t))).filter (fun ct => !(pred ct.fst))).map
        (fun ct => (f ct.fst, ct.snd))
      = (l.filter (fun c => !(pred c))).map (fun c => (f c, t)) := by
  induction l with
  | nil => rfl
  | cons a as ih =>
      by_cases h : pred a = true <;> simp [h, ih]

theorem countP_zero_filter_zip (l : List String) (v : List Value) (pred : String → Bool)
    (hlen : l.length = v.length) (hzero : l.countP pred = 0) :
    ((l.zip v).filter (fun x => !(pred x.fst))).map (fun x => x.snd) = v := by
  induction l generalizing v with
  | nil =>
      cases v with
      | nil => rfl
      | cons b bs => simp at hlen
  | cons a as ih =>
      cases v with
      | nil => simp at hlen
      | cons b bs =>
          rw [List.countP_cons] at hzero
          by_cases hp : pred a = true
          · rw [if_pos hp] at hzero
            omega
          · rw [if_neg hp] at hzero
            rw [List.zip_cons_cons, List.filter_cons]
            have hp' : pred a = false := by
              cases h : pred a with
              | true => exact absurd h hp
              | false => rfl
            simp only [hp', Bool.not_false, if_true, List.map_cons]
            rw [ih bs (by simpa using hlen) (by omega)]

theorem pyNextIndex_of_countP_pos (l : List String) (pred : String → Bool)
    (h : 0 < l.countP pred) : ∃ i, pyNextIndex pred l = some i := by
  induction l with
  | nil => simp [List.countP_nil] at h
  | cons a as ih =>
      unfold pyNextIndex
      by_cases hp : pred a = true
      · exact ⟨0, by simp [hp]⟩
      · rw [List.countP_cons, if_neg hp] at h
        rcases ih (by omega) with ⟨j, hj⟩
        refine ⟨j + 1, ?_⟩
        rw [if_neg hp, hj]
        rfl

theorem eraseIdx_filter_zip (l : List String) (v : List Value) (pred : String → Bool)
    (i : Nat) (hlen : l.length = v.length) (hcount : l.countP pred = 1)
    (hfind : pyNextIndex pred l = some i) :
    v.eraseIdx i = ((l.zip v).filter (fun x => !(pred x.fst))).map (fun x => x.snd) := by
  induction l generalizing v i with
  | nil => simp [List.countP_nil] at hcount
  | cons a as ih =>
      cases v with
      | nil => simp at hlen
      | cons b bs =>
          unfold pyNextIndex at hfind
          rw [List.countP_cons] at hcount
          by_cases hp : pred a = true
          · rw [if_pos hp] at hfind hcount
            have hi : i = 0 := by
              injection hfind with h0
              omega
            subst hi
            rw [List.eraseIdx_cons_zero, List.zip_cons_cons, List.filter_cons]
            have hp' : (!(pred a)) = false := by rw [hp]; rfl
            simp only [hp', Bool.false_eq_true, if_false]
            exact (countP_zero_filter_zip as bs pred (by simpa using hlen)
              (by omega)).symm
          · rw [if_neg hp] at hfind hcount
            cases hj : pyNextIndex pred as with
            | none =>
                rw [hj] at hfind
                exact absurd hfind (by simp)
            | some j =>
                rw [hj] at hfind
                have hij : i = j + 1 := by
                  have : some (j + 1) = some i := hfind
                  injection this with h0
                  omega
                subst hij
                rw [List.eraseIdx_cons_succ, List.zip_cons_cons, List.filter_cons]
                have hp' : pred a = false := by
                  cases h : pred a with
                  | true => exact absurd h hp
                  | false => rfl
                simp only [hp', Bool.not_false, if_true, List.map_cons]
                rw [ih bs j (by simpa using hlen) (by omega) hj]

theorem addUpdateFinishP_some (tn : String) (cn : List String) (cv : List Value)
    (p : String) (qcols qtypes : List String) (qvals : List Value) (i : Nat)
    (pkv : Value)
    (hi : pyNextIndex (fun c => pyLower c == pyLower p) qcols = some i)
    (hpkv : lookupValue cn cv p = Except.ok pkv) :
    addUpdateFinishP tn cn cv p qcols qtypes qvals =
      Except.ok (SqlWrite.updateStmt tn
        (((qcols.zip qtypes).filter (fun ct => !(pyLower ct.fst == pyLower p))).map
          (fun ct => (sqlstrS ct.fst, ct.snd)))
        p (qvals.eraseIdx i ++ [pkv])) := by
  unfold addUpdateFinishP
  rw [hi, hpkv]

/-- C4: for a row written in update mode with a configured primary key (here
for a row without geometry columns, with the aliased column list holding the
key exactly once), add_update_data generates an UPDATE whose SET list holds
every written column except the primary-key column, whose WHERE clause tests
the primary key, and whose bound parameter list is the non-primary-key
column values in order followed by the primary-key value as the final
parameter. -/
theorem add_update_data_update_shape (tn : String) (cn : List String) (cv : List Value)
    (ca : List (String × String)) (p : String) (pkv : Value)
    (hlen : cn.length = cv.length)
    (hcount : (cn.map (fun n => aliasApply ca n)).countP
        (fun c => pyLower c == pyLower (sqlstrS p)) = 1)
    (hpkv : lookupValue cn cv (sqlstrS p) = Except.ok pkv) :
    add_update_data tn cn cv ca none true (some p) =
      Except.ok (SqlWrite.updateStmt (sqlstrS tn)
        (((cn.map (fun n => aliasApply ca n)).filter
            (fun c => !(pyLower c == pyLower (sqlstrS p)))).map
          (fun c => (sqlstrS c, "%s")))
        (sqlstrS p)
        ((((cn.map (fun n => aliasApply ca n)).zip cv).filter
            (fun x => !(pyLower x.fst == pyLower (sqlstrS p)))).map (fun x => x.snd)
          ++ [pkv])) := by
  rcases pyNextIndex_of_countP_pos (cn.map (fun n => aliasApply ca n))
      (fun c => pyLower c == pyLower (sqlstrS p)) (by omega) with ⟨i, hi⟩
  have hstep : add_update_data tn cn cv ca none true (some p) =
      addUpdateFinishP (sqlstrS tn) cn cv (sqlstrS p)
        (cn.map (fun n => aliasApply ca n)) (cn.map (fun x => "%s")) cv := rfl
  rw [hstep, addUpdateFinishP_some (sqlstrS tn) cn cv (sqlstrS p)
    (cn.map (fun n => aliasApply ca n)) (cn.map (fun x => "%s")) cv i pkv hi hpkv]
  have hset : (((cn.map (fun n => aliasApply ca n)).zip
        (cn.map (fun x => "%s"))).filter
          (fun ct => !(pyLower ct.fst == pyLower (sqlstrS p)))).map
        (fun ct => (sqlstrS ct.fst, ct.snd))
      = ((cn.map (fun n => aliasApply ca n)).filter
          (fun c => !(pyLower c == pyLower (sqlstrS p)))).map
        (fun c => (sqlstrS c, "%s")) := by
    rw [zip_map_const (cn.map (fun n => aliasApply ca n)) cn "%s" (by simp),
      filter_map_pair (cn.map (fun n => aliasApply ca n)) "%s"
        (fun c => pyLower c == pyLower (sqlstrS p)) sqlstrS]
  have hvals : cv.eraseIdx i =
      (((cn.map (fun n => aliasApply ca n)).zip cv).filter
          (fun x => !(pyLower x.fst == pyLower (sqlstrS p)))).map (fun x => x.snd) :=
    eraseIdx_filter_zip (cn.map (fun n => aliasApply ca n)) cv
      (fun c => pyLower c == pyLower (sqlstrS p)) i (by simpa using hlen) hcount hi
  rw [hset, hvals]

/-- Witness for C4 on a concrete two-column row. -/
theorem add_update_data_update_shape_witness :
    add_update_data "t" ["id", "a"] [Value.vInt 7, Value.vStr "x"] [] none true
        (some "id") =
      Except.ok (SqlWrite.updateStmt (sqlstrS "t")
        (((["id", "a"].map (fun n => aliasApply [] n)).filter
            (fun c => !(pyLower c == pyLower (sqlstrS "id")))).map
          (fun c => (sqlstrS c, "%s")))
        (sqlstrS "id")
        ((((["id", "a"].map (fun n => aliasApply [] n)).zip
              [Value.vInt 7, Value.vStr "x"]).filter
            (fun x => !(pyLower x.fst == pyLower (sqlstrS "id")))).map (fun x => x.snd)
          ++ [Value.vInt 7])) :=
  add_update_data_update_shape "t" ["id", "a"] [Value.vInt 7, Value.vStr "x"] [] "id"
    (Value.vInt 7) (by rfl) (by decide) (by rfl)

/-! ## DDL state machine (create_db.db_process_table / update_database,
A2Database.drop_table / create_table / create_view / drop_view)

The database connection is abstracted as the data db_process_table consults:
whether the table exists, whether its columns match, the foreign keys that
reference it, whether creating it introduces foreign keys, and whether its
view exists. Executed (database-modifying) statements are recorded as
actions; readonly mode computes and logs statements but executes none. -/

/-- One executed DDL statement. -/
inductive DdlAction where
  | dropFK (table cons : String)
  | dropTable (table : String)
  | createTable (table : String)
  | createView (view table : String)
  | dropView (view : String)
deriving Repr, DecidableEq

/-- What the live database answers about one table. -/
structure TableEnv where
  tableExists : Bool
  colsMatch : Bool
  refFks : List (String × String)
  createsFks : Bool
  viewExists : Bool
deriving Repr, DecidableEq

/-- A2Database.drop_table: drop each foreign key referencing the table, then
the table; nothing executes in readonly mode. -/
def drop_table_actions (table : String) (refFks : List (String × String))
    (readonly : Bool) : List DdlAction :=
  if readonly then []
  else refFks.map (fun pr => DdlAction.dropFK pr.fst pr.snd)
    ++ [DdlAction.dropTable (sqlstrS table)]

/-- A2Database.create_table: one CREATE TABLE statement unless readonly. -/
def create_table_actions (table : String) (readonly : Bool) : List DdlAction :=
  if readonly then [] else [DdlAction.createTable (sqlstrS table)]

/-- A2Database.create_view: one CREATE OR REPLACE VIEW statement unless
readonly. -/
def create_view_actions (view table : String) (readonly : Bool) : List DdlAction :=
  if readonly then [] else [DdlAction.createView (sqlstrS view) (sqlstrS table)]

/-- A2Database.drop_view: a DROP VIEW only when the view exists, and only
executed when not readonly. -/
def drop_view_actions (view : String) (viewIsThere readonly : Bool) : List DdlAction :=
  if viewIsThere && !readonly then [DdlAction.dropView (sqlstrS view)] else []

/-- The create-table tail of db_process_table: CREATE TABLE, then the view
handling when the new table carries foreign keys (create the view unless
noviews; under noviews with force, drop a stale view instead). -/
def createTablePart (env : TableEnv) (name : String) (force readonly noviews : Bool) :
    List DdlAction :=
  create_table_actions name readonly ++
    (if env.createsFks then
      (if !noviews then create_view_actions (name ++ "_view") name readonly
       else if force then drop_view_actions (name ++ "_view") env.viewExists readonly
       else [])
     else [])

/-- create_db.db_process_table: the per-table decision driven by
table_exists, table_cols_match, force and readonly; a mismatch without
force and without readonly raises RuntimeError. -/
def db_process_table (env : TableEnv) (name : String)
    (force readonly noviews : Bool) : Except String (List DdlAction) :=
  if env.tableExists then
    if !env.colsMatch then
      if !force && !readonly then
        Except.error "RuntimeError: table already exists in the database"
      else
        Except.ok (drop_table_actions name env.refFks readonly
          ++ createTablePart env name force readonly noviews)
    else if force then
      Except.ok (drop_table_actions name env.refFks readonly
        ++ createTablePart env name force readonly noviews)
    else
      Except.ok []
  else
    Except.ok (createTablePart env name force readonly noviews)

/-- create_db.update_database's table loop: a RuntimeError from any table is
caught, logged, and turns into sys.exit(200). -/
def update_database_tables (tables : List (TableEnv × String))
    (force readonly noviews : Bool) : Except Nat (List DdlAction) :=
  match tables with
  | [] => Except.ok []
  | (env, name) :: rest =>
      match db_process_table env name force readonly noviews with
      | Except.error _ => Except.error 200
      | Except.ok acts =>
          match update_database_tables rest force readonly noviews with
          | Except.error c => Except.error c
          | Except.ok more => Except.ok (acts ++ more)

/-- C5: for a live table whose columns do not match the spec, a run with
force unset and readonly unset exits with the non-zero code 200; with
readonly set the conflict is only logged and the run continues executing no
database-modifying statement; and a matching live table without force issues
no DDL at all. -/
theorem schema_conflict_handling (env : TableEnv) (name : String) (noviews : Bool)
    (hex : env.tableExists = true) (hmm : env.colsMatch = false) :
    (update_database_tables [(env, name)] false false noviews = Except.error 200 ∧
      (200 : Nat) ≠ 0) ∧
    update_database_tables [(env, name)] false true noviews = Except.ok [] ∧
    (∀ (env2 : TableEnv) (name2 : String), env2.tableExists = true →
      env2.colsMatch = true →
      db_process_table env2 name2 false false noviews = Except.ok []) := by
  refine ⟨⟨?_, by omega⟩, ?_, ?_⟩
  · unfold update_database_tables db_process_table
    simp [hex, hmm]
  · unfold update_database_tables db_process_table
    unfold createTablePart drop_table_actions create_table_actions
      create_view_actions drop_view_actions
    cases hcf : env.createsFks <;> cases noviews <;>
      simp [hex, hmm, hcf, update_database_tables]
  · intro env2 name2 hex2 hmm2
    unfold db_process_table
    simp [hex2, hmm2]

/-- Witness for C5 at a concrete environment: a live mismatching table with
one referencing foreign key. -/
theorem schema_conflict_handling_witness :
    (update_database_tables [(⟨true, false, [("u", "fk1")], true, true⟩, "t")]
        false false false = Except.error 200 ∧ (200 : Nat) ≠ 0) ∧
    update_database_tables [(⟨true, false, [("u", "fk1")], true, true⟩, "t")]
        false true false = Except.ok [] ∧
    (∀ (env2 : TableEnv) (name2 : String), env2.tableExists = true →
      env2.colsMatch = true →
      db_process_table env2 name2 false false false = Except.ok []) :=
  schema_conflict_handling ⟨true, false, [("u", "fk1")], true, true⟩ "t" false
    (by rfl) (by rfl)

/-! ## Coordinate transformation (data_xfer_excel.transform_points /
transform_geom_cols)

The osgeo reprojection library is an external collaborator: its availability
is the GEOM_CAN_TRANSFORM flag and its numeric effect is an opaque function
argument. -/

/-- The two ValueError flavors raised by the transform code, plus the
propagated lookup errors of Python list.index / indexing. -/
inductive XferErr where
  | invalidInput
  | missingCapability
  | lookupFailure
deriving Repr, DecidableEq

/-- data_xfer_excel.transform_points: reject an odd or empty flat X,Y list,
then reject a missing osgeo module, then reproject through the library. -/
def transform_points (canTransform : Bool)
    (lib : Int → Int → List Value → List Value)
    (from_epsg to_epsg : Int) (values : List Value) : Except XferErr (List Value) :=
  if values.length % 2 ≠ 0 ∨ values.length < 1 then
    Except.error XferErr.invalidInput
  else if !canTransform then
    Except.error XferErr.missingCapability
  else
    Except.ok (lib from_epsg to_epsg values)

/-- The X,Y sheet-column pairs walked by the transform_geom_cols loop. -/
def sheetColPairs : List String → Option (List (String × String))
  | [] => some []
  | x :: y :: rest => (sheetColPairs rest).map (fun ps => (x, y) :: ps)
  | [_] => none

/-- data_xfer_excel.transform_geom_cols: identical source and target EPSG
codes short-circuit to the unchanged value list; otherwise the coordinate
values are gathered by column name, reprojected via transform_points, and
scattered back into their positions. -/
def transform_geom_cols (canTransform : Bool)
    (lib : Int → Int → List Value → List Value)
    (col_names : List String) (col_values : List Value) (g : GeomColInfo)
    (from_epsg to_epsg : Int) : Except XferErr (List Value) :=
  if from_epsg = to_epsg then Except.ok col_values
  else if g.sheet_cols.length % 2 ≠ 0 then Except.error XferErr.invalidInput
  else
    match sheetColPairs g.sheet_cols with
    | none => Except.error XferErr.invalidInput
    | some pairs =>
        match pairs.mapM (fun pr =>
            match col_names.indexOf? pr.fst, col_names.indexOf? pr.snd with
            | some ix, some iy => some (ix, iy)
            | _, _ => none) with
        | none => Except.error XferErr.lookupFailure
        | some idxs =>
            match (idxs.flatMap (fun pr => [pr.fst, pr.snd])).mapM
                (fun i => col_values.get? i) with
            | none => Except.error XferErr.lookupFailure
            | some pt_values =>
                match transform_points canTransform lib from_epsg to_epsg pt_values with
                | Except.error e => Except.error e
                | Except.ok new_pt =>
                    Except.ok (((idxs.flatMap (fun pr => [pr.fst, pr.snd])).zip
                        new_pt).foldl (fun acc pr => acc.set pr.fst pr.snd) col_values)

/-- C8 counterexample: with equal source and target EPSG codes,
transform_points is NOT a no-op returning the input — an odd-length input
still raises the invalid-input ValueError (the equal-code short-circuit
lives in the caller transform_geom_cols, not in transform_points). -/
theorem transform_points_equal_epsg_counterexample :
    transform_points true (fun _ _ v => v) 4326 4326 [Value.vInt 1]
      = Except.error XferErr.invalidInput := by
  rfl

/-- C8 (amended): transform_points validates its input first regardless of
code equality — invalid-input error on an odd or empty list, then
missing-capability error when the projection library is absent, and
otherwise the library reprojection; the equal-code no-op returning the
input values is performed by the caller transform_geom_cols. -/
theorem transform_points_error_order (can : Bool)
    (lib : Int → Int → List Value → List Value) (f t : Int) (vs : List Value)
    (cn : List String) (cv : List Value) (g : GeomColInfo) :
    (vs.length % 2 ≠ 0 ∨ vs.length = 0 →
      transform_points can lib f t vs = Except.error XferErr.invalidInput) ∧
    (vs.length % 2 = 0 → vs ≠ [] → can = false →
      transform_points can lib f t vs = Except.error XferErr.missingCapability) ∧
    (vs.length % 2 = 0 → vs ≠ [] → can = true →
      transform_points can lib f t vs = Except.ok (lib f t vs)) ∧
    transform_geom_cols can lib cn cv g f f = Except.ok cv := by
  refine ⟨?_, ?_, ?_, ?_⟩
  · intro h
    unfold transform_points
    rw [if_pos]
    rcases h with h | h
    · exact Or.inl h
    · exact Or.inr (by omega)
  · intro heven hne hcan
    unfold transform_points
    have hpos : 0 < vs.length := List.length_pos.mpr hne
    rw [if_neg (by omega), hcan]
    rfl
  · intro heven hne hcan
    unfold transform_points
    have hpos : 0 < vs.length := List.length_pos.mpr hne
    rw [if_neg (by omega), hcan]
    rfl
  · unfold transform_geom_cols
    rw [if_pos rfl]

/-- Witness for C8 (amended) at concrete inputs: an odd singleton, a missing
library on a well-formed pair, a present library on a well-formed pair, and
the caller's equal-code no-op. -/
theorem transform_points_error_order_witness :
    transform_points false (fun _ _ v => v) 4326 3857 [Value.vInt 1]
        = Except.error XferErr.invalidInput ∧
    transform_points false (fun _ _ v => v) 4326 3857 [Value.vInt 1, Value.vInt 2]
        = Except.error XferErr.missingCapability ∧
    transform_points true (fun _ _ v => v) 4326 3857 [Value.vInt 1, Value.vInt 2]
        = Except.ok ((fun _ _ v => v : Int → Int → List Value → List Value)
            4326 3857 [Value.vInt 1, Value.vInt 2]) ∧
    transform_geom_cols false (fun _ _ v => v) ["x"] [Value.vInt 9]
        ⟨"geom", "frag", ["x", "y"]⟩ 4326 4326 = Except.ok [Value.vInt 9] :=
  ⟨(transform_points_error_order false (fun _ _ v => v) 4326 3857 [Value.vInt 1]
      [] [] ⟨"", "", []⟩).1 (Or.inl (by decide)),
    (transform_points_error_order false (fun _ _ v => v) 4326 3857
        [Value.vInt 1, Value.vInt 2] [] [] ⟨"", "", []⟩).2.1 (by decide)
      (by decide) rfl,
    (transform_points_error_order true (fun _ _ v => v) 4326 3857
        [Value.vInt 1, Value.vInt 2] [] [] ⟨"", "", []⟩).2.2.1 (by decide)
      (by decide) rfl,
    (transform_points_error_order false (fun _ _ v => v) 4326 4326 []
        ["x"] [Value.vInt 9] ⟨"geom", "frag", ["x", "y"]⟩).2.2.2⟩

/-! ## Foreign-key capture and truncate-with-reset
(data_xfer_excel.db_get_fk_constraints / db_remove_fk_constraints /
db_restore_fk_constraints / process_sheet) -/

/-- One row of the KEY_COLUMN_USAGE query issued by db_get_fk_constraints. -/
structure FKRow where
  table_schema : String
  table_name : String
  column_name : String
  constraint_schema : String
  constraint_name : String
  ref_table_schema : String
  ref_table_name : String
  ref_column_name : String
  ordinal_position : Nat
deriving Repr, DecidableEq

/-- One captured constraint: the dictionary entry built by
db_get_fk_constraints, with ref_columns ordered by ordinal position. -/
structure FKConstraint where
  table_schema : String
  table_name : String
  table_column : String
  constraint_schema : String
  ref_table_schema : String
  ref_table_name : String
  ref_columns : List String
deriving Repr, DecidableEq

/-- Python dict lookup on an insertion-ordered association list. -/
def lookupAssoc (l : List (String × FKConstraint)) (k : String) : Option FKConstraint :=
  (l.find? (fun pr => pr.fst == k)).map (fun pr => pr.snd)

/-- Python dict assignment on an insertion-ordered association list: an
existing key keeps its position and takes the new value, a new key is
appended. -/
def updateAssoc : List (String × FKConstraint) → String → FKConstraint →
    List (String × FKConstraint)
  | [], k, v => [(k, v)]
  | a :: as, k, v => if a.fst = k then (k, v) :: as else a :: updateAssoc as k v

/-- The while-loop padding of ref_columns with '' up to the ordinal. -/
def padRefColumns (l : List String) (n : Nat) : List String :=
  l ++ List.replicate (n - l.length) ""

/-- The cur_cons fetched or created by the db_get_fk_constraints loop body:
the existing dictionary entry, or a fresh one built from the row with an
empty ref_columns list. -/
def fkCur (acc : List (String × FKConstraint)) (r : FKRow) : FKConstraint :=
  match lookupAssoc acc r.constraint_name with
  | some c => c
  | none =>
      ⟨r.table_schema, r.table_name, r.column_name, r.constraint_schema,
        r.ref_table_schema, r.ref_table_name, []⟩

/-- The loop body's updated entry: ref_columns padded to the ordinal
position, with the referenced column placed at ordinal - 1. -/
def fkNew (acc : List (String × FKConstraint)) (r : FKRow) : FKConstraint :=
  { fkCur acc r with ref_columns :=
      ((padRefColumns (fkCur acc r).ref_columns r.ordinal_position).set
        (r.ordinal_position - 1) r.ref_column_name) }

/-- One iteration of the db_get_fk_constraints row loop. -/
def fkStep (acc : List (String × FKConstraint)) (r : FKRow) :
    List (String × FKConstraint) :=
  updateAssoc acc r.constraint_name (fkNew acc r)

/-- data_xfer_excel.db_get_fk_constraints: fold the query rows into the
constraint dictionary. -/
def db_get_fk_constraints (rows : List FKRow) : List (String × FKConstraint) :=
  rows.foldl fkStep []

theorem lookupAssoc_nil (k : String) : lookupAssoc [] k = none := rfl

theorem lookupAssoc_cons (a : String × FKConstraint) (as : List (String × FKConstraint))
    (k : String) :
    lookupAssoc (a :: as) k = if a.fst = k then some a.snd else lookupAssoc as k := by
  unfold lookupAssoc
  by_cases h : a.fst = k
  · rw [List.find?_cons_of_pos _ (by simp [h]), if_pos h]
    rfl
  · rw [List.find?_cons_of_neg _ (by simp [h]), if_neg h]

theorem lookupAssoc_updateAssoc_self (l : List (String × FKConstraint)) (k : String)
    (v : FKConstraint) : lookupAssoc (updateAssoc l k v) k = some v := by
  induction l with
  | nil => simp [updateAssoc, lookupAssoc_cons]
  | cons a as ih =>
      unfold updateAssoc
      by_cases h : a.fst = k
      · rw [if_pos h, lookupAssoc_cons]
        simp
      · rw [if_neg h, lookupAssoc_cons, if_neg h]
        exact ih

theorem lookupAssoc_updateAssoc_ne (l : List (String × FKConstraint)) (k k2 : String)
    (v : FKConstraint) (hne : k2 ≠ k) :
    lookupAssoc (updateAssoc l k v) k2 = lookupAssoc l k2 := by
  induction l with
  | nil =>
      simp only [updateAssoc, lookupAssoc_cons, lookupAssoc_nil]
      rw [if_neg (fun h => hne (Eq.symm h))]
  | cons a as ih =>
      unfold updateAssoc
      by_cases h : a.fst = k
      · rw [if_pos h, lookupAssoc_cons, lookupAssoc_cons]
        rw [if_neg (fun hh => hne (Eq.symm hh)),
          if_neg (show ¬(a.fst = k2) from fun hh => hne (Eq.symm (h ▸ hh)))]
      · rw [if_neg h, lookupAssoc_cons, lookupAssoc_cons]
        by_cases h2 : a.fst = k2
        · rw [if_pos h2, if_pos h2]
        · rw [if_neg h2, if_neg h2]
          exact ih

theorem padRefColumns_length (l : List String) (n : Nat) :
    (padRefColumns l n).length = max l.length n := by
  unfold padRefColumns
  rw [List.length_append, List.length_replicate]
  omega

theorem getElem?_padRefColumns (l : List String) (n p : Nat) (x : String)
    (h : l[p]? = some x) : (padRefColumns l n)[p]? = some x := by
  unfold padRefColumns
  rw [List.getElem?_append]
  have hlt : p < l.length := (List.getElem?_eq_some.mp h).fst
  rw [if_pos hlt]
  exact h

theorem fk_set_position (l : List String) (n : Nat) (col : String) (hn : 1 ≤ n) :
    ((padRefColumns l n).set (n - 1) col)[n - 1]? = some col := by
  apply List.getElem?_set_self
  rw [padRefColumns_length]
  omega

theorem fk_set_preserve (l : List String) (n p : Nat) (col x : String)
    (hp : p ≠ n - 1) (h : l[p]? = some x) :
    ((padRefColumns l n).set (n - 1) col)[p]? = some x := by
  rw [List.getElem?_set_ne (fun hh => hp hh.symm)]
  exact getElem?_padRefColumns l n p x h

/-- An established position fact about a captured constraint: the dictionary
holds an entry for the key whose ref_columns list carries col at index p. -/
def FKPosFact (acc : List (String × FKConstraint)) (k : String) (p : Nat)
    (col : String) : Prop :=
  ∃ c, lookupAssoc acc k = some c ∧ c.ref_columns[p]? = some col

theorem fkStep_pos_establish (acc : List (String × FKConstraint)) (r : FKRow)
    (h : 1 ≤ r.ordinal_position) :
    FKPosFact (fkStep acc r) r.constraint_name (r.ordinal_position - 1)
      r.ref_column_name := by
  refine ⟨fkNew acc r, lookupAssoc_updateAssoc_self acc r.constraint_name (fkNew acc r), ?_⟩
  have hrc : (fkNew acc r).ref_columns =
      (padRefColumns (fkCur acc r).ref_columns r.ordinal_position).set
        (r.ordinal_position - 1) r.ref_column_name := rfl
  rw [hrc]
  exact fk_set_position (fkCur acc r).ref_columns r.ordinal_position r.ref_column_name h

theorem fkStep_pos_preserve (acc : List (String × FKConstraint)) (r : FKRow)
    (k : String) (p : Nat) (col : String) (hf : FKPosFact acc k p col)
    (hguard : r.constraint_name = k → r.ordinal_position - 1 ≠ p) :
    FKPosFact (fkStep acc r) k p col := by
  rcases hf with ⟨c, hc, hcp⟩
  by_cases hk : r.constraint_name = k
  · subst hk
    have hcur : fkCur acc r = c := by
      unfold fkCur
      rw [hc]
    refine ⟨fkNew acc r,
      lookupAssoc_updateAssoc_self acc r.constraint_name (fkNew acc r), ?_⟩
    have hrc : (fkNew acc r).ref_columns =
        (padRefColumns (fkCur acc r).ref_columns r.ordinal_position).set
          (r.ordinal_position - 1) r.ref_column_name := rfl
    rw [hrc, hcur]
    exact fk_set_preserve c.ref_columns r.ordinal_position p r.ref_column_name col
      (fun hh => (hguard rfl) hh.symm) hcp
  · refine ⟨c, ?_, hcp⟩
    unfold fkStep
    rw [lookupAssoc_updateAssoc_ne acc r.constraint_name k (fkNew acc r)
      (fun hh => hk hh.symm)]
    exact hc

theorem fk_fold_pos (rows : List FKRow) (acc : List (String × FKConstraint))
    (hords : ∀ r ∈ rows, 1 ≤ r.ordinal_position)
    (hpair : rows.Pairwise (fun r1 r2 => r1.constraint_name = r2.constraint_name →
        r1.ordinal_position ≠ r2.ordinal_position)) :
    (∀ k p col, FKPosFact acc k p col →
      (∀ r ∈ rows, r.constraint_name = k → r.ordinal_position - 1 ≠ p) →
      FKPosFact (rows.foldl fkStep acc) k p col) ∧
    (∀ r ∈ rows, FKPosFact (rows.foldl fkStep acc) r.constraint_name
      (r.ordinal_position - 1) r.ref_column_name) := by
  induction rows generalizing acc with
  | nil => exact ⟨fun k p col hf _ => hf, fun r hr => absurd hr (by simp)⟩
  | cons r rs ih =>
      have hords' : ∀ x ∈ rs, 1 ≤ x.ordinal_position :=
        fun x hx => hords x (List.mem_cons_of_mem r hx)
      have hrel := (List.pairwise_cons.mp hpair).1
      have hpair' := (List.pairwise_cons.mp hpair).2
      constructor
      · intro k p col hf hguard
        rw [List.foldl_cons]
        exact (ih (fkStep acc r) hords' hpair').1 k p col
          (fkStep_pos_preserve acc r k p col hf (fun hk => hguard r (by simp) hk))
          (fun x hx hk => hguard x (List.mem_cons_of_mem r hx) hk)
      · intro x hx
        rw [List.foldl_cons]
        rcases List.mem_cons.mp hx with hx | hx
        · subst hx
          apply (ih (fkStep acc x) hords' hpair').1
          · exact fkStep_pos_establish acc x (hords x (by simp))
          · intro y hy hk
            have hord := hrel y hy hk.symm
            have hy1 := hords' y hy
            have hx1 := hords x (by simp)
            omega
        · exact (ih (fkStep acc r) hords' hpair').2 x hx

/-- An established field fact about a captured constraint: the dictionary
entry's table, constrained column, and referenced table. -/
def FKFieldFact (acc : List (String × FKConstraint)) (k tn tc rtn : String) : Prop :=
  ∃ c, lookupAssoc acc k = some c ∧ c.table_name = tn ∧ c.table_column = tc ∧
    c.ref_table_name = rtn

theorem fkStep_field_preserve (acc : List (String × FKConstraint)) (r : FKRow)
    (k tn tc rtn : String) (hf : FKFieldFact acc k tn tc rtn) :
    FKFieldFact (fkStep acc r) k tn tc rtn := by
  rcases hf with ⟨c, hc, h1, h2, h3⟩
  by_cases hk : r.constraint_name = k
  · subst hk
    have hcur : fkCur acc r = c := by
      unfold fkCur
      rw [hc]
    refine ⟨fkNew acc r,
      lookupAssoc_updateAssoc_self acc r.constraint_name (fkNew acc r), ?_, ?_, ?_⟩
    · have h : (fkNew acc r).table_name = (fkCur acc r).table_name := rfl
      rw [h, hcur]
      exact h1
    · have h : (fkNew acc r).table_column = (fkCur acc r).table_column := rfl
      rw [h, hcur]
      exact h2
    · have h : (fkNew acc r).ref_table_name = (fkCur acc r).ref_table_name := rfl
      rw [h, hcur]
      exact h3
  · refine ⟨c, ?_, h1, h2, h3⟩
    unfold fkStep
    rw [lookupAssoc_updateAssoc_ne acc r.constraint_name k (fkNew acc r)
      (fun hh => hk hh.symm)]
    exact hc

theorem fkStep_field_establish_new (acc : List (String × FKConstraint)) (r : FKRow)
    (hnone : lookupAssoc acc r.constraint_name = none) :
    FKFieldFact (fkStep acc r) r.constraint_name r.table_name r.column_name
      r.ref_table_name := by
  have hcur : fkCur acc r =
      ⟨r.table_schema, r.table_name, r.column_name, r.constraint_schema,
        r.ref_table_schema, r.ref_table_name, []⟩ := by
    unfold fkCur
    rw [hnone]
  refine ⟨fkNew acc r,
    lookupAssoc_updateAssoc_self acc r.constraint_name (fkNew acc r), ?_, ?_, ?_⟩
  · have h : (fkNew acc r).table_name = (fkCur acc r).table_name := rfl
    rw [h, hcur]
  · have h : (fkNew acc r).table_column = (fkCur acc r).table_column := rfl
    rw [h, hcur]
  · have h : (fkNew acc r).ref_table_name = (fkCur acc r).ref_table_name := rfl
    rw [h, hcur]

theorem fk_fold_fields (rows : List FKRow) (acc : List (String × FKConstraint)) :
    (∀ k tn tc rtn, FKFieldFact acc k tn tc rtn →
      FKFieldFact (rows.foldl fkStep acc) k tn tc rtn) ∧
    (∀ r ∈ rows, lookupAssoc acc r.constraint_name = none →
      ∃ r0, r0 ∈ rows ∧ r0.constraint_name = r.constraint_name ∧
        FKFieldFact (rows.foldl fkStep acc) r.constraint_name
          r0.table_name r0.column_name r0.ref_table_name) := by
  induction rows generalizing acc with
  | nil => exact ⟨fun k tn tc rtn hf => hf, fun r hr => absurd hr (by simp)⟩
  | cons r rs ih =>
      constructor
      · intro k tn tc rtn hf
        rw [List.foldl_cons]
        exact (ih (fkStep acc r)).1 k tn tc rtn
          (fkStep_field_preserve acc r k tn tc rtn hf)
      · intro x hx hnone
        rw [List.foldl_cons]
        rcases List.mem_cons.mp hx with hx | hx
        · subst hx
          refine ⟨x, by simp, rfl, ?_⟩
          exact (ih (fkStep acc x)).1 _ _ _ _ (fkStep_field_establish_new acc x hnone)
        · by_cases hk : r.constraint_name = x.constraint_name
          · refine ⟨r, by simp, hk, ?_⟩
            have hest := fkStep_field_establish_new acc r (by rw [hk]; exact hnone)
            rw [hk] at hest
            exact (ih (fkStep acc r)).1 _ _ _ _ hest
          · have hnone' : lookupAssoc (fkStep acc r) x.constraint_name = none := by
              unfold fkStep
              rw [lookupAssoc_updateAssoc_ne acc r.constraint_name x.constraint_name
                (fkNew acc r) (fun hh => hk hh.symm)]
              exact hnone
            rcases (ih (fkStep acc r)).2 x hx hnone' with ⟨r0, hr0, hname, hff⟩
            exact ⟨r0, List.mem_cons_of_mem r hr0, hname, hff⟩

/-- One database operation observed during process_sheet, in issue order. -/
inductive SheetEvent where
  | selectConstraints (table : String)
  | dropFKCons (table cons : String)
  | truncate (table : String)
  | rowOp (n : Nat)
  | addFKCons (table cons col refTable : String) (refCols : List String)
deriving Repr, DecidableEq

/-- data_xfer_excel.db_remove_fk_constraints: one ALTER TABLE ... DROP
FOREIGN KEY per captured constraint, in dictionary order. -/
def db_remove_fk_constraints (cs : List (String × FKConstraint)) : List SheetEvent :=
  cs.map (fun pr => SheetEvent.dropFKCons pr.snd.table_name pr.fst)

/-- data_xfer_excel.db_restore_fk_constraints: one ALTER TABLE ... ADD
FOREIGN KEY per captured constraint, restoring its original constrained
column, referenced table, and ordered referenced columns. -/
def db_restore_fk_constraints (cs : List (String × FKConstraint)) : List SheetEvent :=
  cs.map (fun pr => SheetEvent.addFKCons pr.snd.table_name pr.fst
    pr.snd.table_column pr.snd.ref_table_name pr.snd.ref_columns)

/-- The operation trace of data_xfer_excel.process_sheet: under reset, the
constraint introspection, the constraint drops, and the TRUNCATE precede the
row processing, and the captured constraints are restored after it; the
restore runs only when constraints were captured (saved_constraints is
falsy otherwise). The row-processing operations are abstracted as the given
event list. -/
def process_sheet_events (table : String) (fkRows : List FKRow)
    (rowEvents : List SheetEvent) (resetting : Bool) : List SheetEvent :=
  let saved := if resetting then db_get_fk_constraints fkRows else []
  (if resetting then
    [SheetEvent.selectConstraints table] ++ db_remove_fk_constraints saved
      ++ [SheetEvent.truncate table]
   else [])
  ++ rowEvents
  ++ (if !saved.isEmpty then db_restore_fk_constraints saved else [])

/-- C6: a truncate-with-reset of table T issues, in order, the SELECT of the
constraints referencing T, one DROP FOREIGN KEY per captured constraint, the
TRUNCATE of T, the row repopulation, and one ADD FOREIGN KEY per captured
constraint; and each captured constraint carries the original constrained
(table, column) and referenced table of its rows, with its referenced-column
list ordered by the constraint's ordinal position (position ordinal - 1)
rather than by result-arrival order. -/
theorem truncate_reset_sequence (table : String) (fkRows : List FKRow)
    (rowEvents : List SheetEvent)
    (hords : ∀ r ∈ fkRows, 1 ≤ r.ordinal_position)
    (hpair : fkRows.Pairwise (fun r1 r2 =>
      r1.constraint_name = r2.constraint_name →
        r1.ordinal_position ≠ r2.ordinal_position))
    (hagree : ∀ r1 ∈ fkRows, ∀ r2 ∈ fkRows,
      r1.constraint_name = r2.constraint_name →
      r1.table_name = r2.table_name ∧ r1.column_name = r2.column_name ∧
        r1.ref_table_name = r2.ref_table_name) :
    process_sheet_events table fkRows rowEvents true =
      [SheetEvent.selectConstraints table]
        ++ db_remove_fk_constraints (db_get_fk_constraints fkRows)
        ++ [SheetEvent.truncate table]
        ++ rowEvents
        ++ db_restore_fk_constraints (db_get_fk_constraints fkRows) ∧
    (∀ r ∈ fkRows, ∃ c,
      lookupAssoc (db_get_fk_constraints fkRows) r.constraint_name = some c ∧
      c.table_name = r.table_name ∧ c.table_column = r.column_name ∧
      c.ref_table_name = r.ref_table_name ∧
      c.ref_columns[r.ordinal_position - 1]? = some r.ref_column_name) := by
  constructor
  · unfold process_sheet_events
    cases hsaved : (db_get_fk_constraints fkRows).isEmpty with
    | true =>
        have hnil : db_get_fk_constraints fkRows = [] := by
          cases h : db_get_fk_constraints fkRows with
          | nil => rfl
          | cons a as =>
              rw [h] at hsaved
              simp at hsaved
        rw [hnil]
        simp [db_remove_fk_constraints, db_restore_fk_constraints]
    | false => simp [hsaved]
  · intro r hr
    have hpos := (fk_fold_pos fkRows [] hords hpair).2 r hr
    have hfield := (fk_fold_fields fkRows []).2 r hr (lookupAssoc_nil r.constraint_name)
    rcases hpos with ⟨c1, hc1, hcp⟩
    rcases hfield with ⟨r0, hr0, hname, c2, hc2, ht, hcol, hrt⟩
    have hsame : c1 = c2 := Option.some.inj (hc1.symm.trans hc2)
    subst hsame
    rcases hagree r0 hr0 r hr hname with ⟨ht2, hcol2, hrt2⟩
    exact ⟨c1, hc1, by rw [ht, ht2], by rw [hcol, hcol2], by rw [hrt, hrt2], hcp⟩

/-- Witness for C6: two constraint rows of one composite key arriving in
reversed ordinal order still restore with ref_columns ordered by ordinal. -/
theorem truncate_reset_sequence_witness :
    (process_sheet_events "t"
        [⟨"s", "u", "fk_col", "s", "fk1", "s", "t", "colB", 2⟩,
          ⟨"s", "u", "fk_col", "s", "fk1", "s", "t", "colA", 1⟩]
        [SheetEvent.rowOp 1] true =
      [SheetEvent.selectConstraints "t"]
        ++ db_remove_fk_constraints (db_get_fk_constraints
            [⟨"s", "u", "fk_col", "s", "fk1", "s", "t", "colB", 2⟩,
              ⟨"s", "u", "fk_col", "s", "fk1", "s", "t", "colA", 1⟩])
        ++ [SheetEvent.truncate "t"]
        ++ [SheetEvent.rowOp 1]
        ++ db_restore_fk_constraints (db_get_fk_constraints
            [⟨"s", "u", "fk_col", "s", "fk1", "s", "t", "colB", 2⟩,
              ⟨"s", "u", "fk_col", "s", "fk1", "s", "t", "colA", 1⟩])) ∧
    (∀ r ∈ [(⟨"s", "u", "fk_col", "s", "fk1", "s", "t", "colB", 2⟩ : FKRow),
          ⟨"s", "u", "fk_col", "s", "fk1", "s", "t", "colA", 1⟩], ∃ c,
      lookupAssoc (db_get_fk_constraints
          [⟨"s", "u", "fk_col", "s", "fk1", "s", "t", "colB", 2⟩,
            ⟨"s", "u", "fk_col", "s", "fk1", "s", "t", "colA", 1⟩])
          r.constraint_name = some c ∧
      c.table_name = r.table_name ∧ c.table_column = r.column_name ∧
      c.ref_table_name = r.ref_table_name ∧
      c.ref_columns[r.ordinal_position - 1]? = some r.ref_column_name) :=
  truncate_reset_sequence "t"
    [⟨"s", "u", "fk_col", "s", "fk1", "s", "t", "colB", 2⟩,
      ⟨"s", "u", "fk_col", "s", "fk1", "s", "t", "colA", 1⟩]
    [SheetEvent.rowOp 1]
    (by decide) (by decide) (by decide)
